import Mathlib

/-!
Verification of the `only_one` Rust crate (`src/one.rs`).

The crate provides a single type `One<T>`, a newtype around `Option<T>`,
acting as a single-use slot: the value may be read and written freely
through `Deref`/`DerefMut`, and taken out exactly once via `One::take`;
any access after the value was taken panics with "Value taken already.".

The embedding below translates the source directly:
* `One T` wraps `Option T` (the newtype field `0` becomes `val`);
* panicking accesses are modelled with `Except String`, carrying the
  exact panic message of the source (`One.expect`);
* `Deref::deref` becomes `One.deref`, `DerefMut::deref_mut` is modelled
  by its two observable effects: reading the current value
  (`One.derefMut`) and writing a new value through the returned mutable
  reference (`One.writeThrough`);
* the derived `PartialEq`/`Eq` and `PartialOrd`/`Ord` instances compare
  the wrapped `Option` field; `One.beqOne` and `One.cmpOne` replicate
  Rust's derived `Option` equality and ordering (in Rust's `Option`,
  `None` sorts before `Some`, and `Some` values compare by `T`).
-/

universe u

namespace OnlyOne

/-- `pub struct One<T>(Option<T>)` from `src/one.rs`. -/
structure One (T : Type u) where
  val : Option T
  deriving Repr, DecidableEq

/-- The panic message used by `One::expect` in the source:
`x.expect("Value taken already.")`. The spec calls this failure
`EmptyAccess`. -/
def One.emptyAccess : String := "Value taken already."

/-- `One::expect`: returns the value inside a `Some`, fails with the
`EmptyAccess` panic message on `None`. -/
def One.expect {V : Type u} (x : Option V) : Except String V :=
  match x with
  | some v => Except.ok v
  | Option.none => Except.error One.emptyAccess

/-- `One::new(value)`: `Self(Some(value))`. -/
def One.new {T : Type u} (value : T) : One T :=
  ⟨some value⟩

/-- `One::none()`: `Self(None)`. -/
def One.mkNone {T : Type u} : One T :=
  ⟨Option.none⟩

/-- `One::exists(this)`: `this.0.is_some()`. -/
def One.exists' {T : Type u} (this : One T) : Bool :=
  this.val.isSome

/-- `One::take(this)`: `Self::expect(this.0.take())`. `Option::take`
replaces the field with `None` and yields the old contents, which are
then unwrapped by `expect`. The model returns the taken value together
with the slot state after the call (the field is `None` afterwards in
both the success and the panic case). -/
def One.take {T : Type u} (this : One T) : Except String (T × One T) :=
  (One.expect this.val).map (fun v => (v, ⟨Option.none⟩))

/-- `<One<T> as Deref>::deref`: `Self::expect(self.0.as_ref())`. -/
def One.deref {T : Type u} (self : One T) : Except String T :=
  One.expect self.val

/-- `<One<T> as DerefMut>::deref_mut`, read side:
`Self::expect(self.0.as_mut())` gives a mutable reference to the
contained value; reading through it yields the current value. -/
def One.derefMut {T : Type u} (self : One T) : Except String T :=
  One.expect self.val

/-- `<One<T> as DerefMut>::deref_mut`, write side: assigning `v`
through the mutable reference returned by `deref_mut` replaces the
contained value with `v`. Fails (panics) exactly when `deref_mut`
itself fails, i.e. when the field is `None`; the expect happens before
any mutation, so the slot is unchanged on failure. -/
def One.writeThrough {T : Type u} (self : One T) (v : T) : Except String (One T) :=
  (One.expect self.val).map (fun _ => ⟨some v⟩)

/-- `impl<T> Default for One<T>`: `Self(Default::default())`. The
`Default` instance of `Option<T>` is `None` for every `T` (no
`T: Default` bound exists in the source), so this is `Self(None)`. -/
def One.defaultOne {T : Type u} : One T :=
  ⟨(default : Option T)⟩

/-- `impl<T> From<T> for One<T>`: `Self::new(value)`. -/
def One.fromValue {T : Type u} (value : T) : One T :=
  One.new value

/-- The derived `PartialEq`/`Eq` of `One<T>` compares the single
`Option<T>` field with `Option`'s equality: `None == None`,
`Some(a) == Some(b)` iff `a == b`, mixed cases unequal. -/
def One.beqOne {T : Type u} [BEq T] (a b : One T) : Bool :=
  match a.val, b.val with
  | Option.none, Option.none => true
  | some x, some y => x == y
  | _, _ => false

/-- The derived `PartialOrd`/`Ord` of `One<T>` compares the single
`Option<T>` field with `Option`'s ordering: `None` sorts before
`Some`, and `Some` payloads compare by `T`'s own ordering. -/
def One.cmpOne {T : Type u} [Ord T] (a b : One T) : Ordering :=
  match a.val, b.val with
  | Option.none, Option.none => Ordering.eq
  | Option.none, some _ => Ordering.lt
  | some _, Option.none => Ordering.gt
  | some x, some y => compare x y

/-- The operations a caller can perform on an existing slot
(construction makes a fresh slot, so a sequence of operations on one
slot consists of presence queries, reads, writes and extractions). -/
inductive One.Op (T : Type u) where
  | isPresent
  | read
  | write (v : T)
  | extract
  deriving Repr, DecidableEq

/-- The slot state after one operation. `isPresent` and `read` never
change the state. A failing (panicking) operation leaves the state it
observed: `write` panics in `deref_mut` before any mutation, and
`take`'s `Option::take` on an already-`None` field writes back `None`.
The successful cases delegate to the modelled source operations. -/
def One.applyOp {T : Type u} (s : One T) : One.Op T → One T
  | One.Op.isPresent => s
  | One.Op.read => s
  | One.Op.write v =>
    match One.writeThrough s v with
    | Except.ok s' => s'
    | Except.error _ => s
  | One.Op.extract =>
    match One.take s with
    | Except.ok (_, s') => s'
    | Except.error _ => s

/-- The slot state after a sequence of operations. -/
def One.applyOps {T : Type u} (s : One T) (ops : List (One.Op T)) : One T :=
  ops.foldl One.applyOp s

/-- C6: for every value `v`, `is-present` of a slot produced by
`construct-with(v)` (`One::new`) is true, and `is-present` of a slot
produced by `construct-empty()` (`One::none`) is false. -/
theorem presence_after_construction {T : Type u} (v : T) :
    One.exists' (One.new v) = true ∧ One.exists' (One.mkNone : One T) = false :=
  ⟨rfl, rfl⟩

/-- C4: for every value `v`, `extract` (`One::take`) on a slot
constructed with `v` succeeds returning exactly `v`, and the slot state
immediately afterwards has `is-present` false. -/
theorem take_returns_and_empties {T : Type u} (v : T) :
    ∃ s' : One T, One.take (One.new v) = Except.ok (v, s') ∧ One.exists' s' = false :=
  ⟨One.mkNone, rfl, rfl⟩

/-- C5: for every value `v`, `read` (`Deref::deref`) on a slot
constructed with `v` yields `v`; and for every `v2`, writing `v2`
through `DerefMut::deref_mut` succeeds and a subsequent `read` yields
`v2`. -/
theorem read_write_transparency {T : Type u} (v v2 : T) :
    One.deref (One.new v) = Except.ok v ∧
    ∃ s' : One T, One.writeThrough (One.new v) v2 = Except.ok s' ∧
      One.deref s' = Except.ok v2 :=
  ⟨rfl, One.new v2, rfl, rfl⟩

/-- C3: `read`, `write` and `extract` fail with the `EmptyAccess`
error (`"Value taken already."`) exactly when the slot is absent, for
every slot state (whether absent by empty construction or by a prior
`take`); when the slot is present they succeed. -/
theorem fail_iff_absent {T : Type u} (s : One T) (v : T) :
    (One.deref s = Except.error One.emptyAccess ↔ One.exists' s = false) ∧
    (One.writeThrough s v = Except.error One.emptyAccess ↔ One.exists' s = false) ∧
    (One.take s = Except.error One.emptyAccess ↔ One.exists' s = false) ∧
    ((∃ x, One.deref s = Except.ok x) ↔ One.exists' s = true) ∧
    ((∃ s', One.writeThrough s v = Except.ok s') ↔ One.exists' s = true) ∧
    ((∃ p, One.take s = Except.ok p) ↔ One.exists' s = true) := by
  obtain ⟨o⟩ := s
  cases o <;>
    simp [One.deref, One.writeThrough, One.take, One.expect, One.exists', Except.map]

/-- C3 witness: on the empty slot over `Nat`, `read` fails with
`EmptyAccess`, and on a slot holding `7` it succeeds. -/
theorem fail_iff_absent_witness :
    One.deref (One.mkNone : One Nat) = Except.error One.emptyAccess ∧
    (∃ x, One.deref (One.new (7 : Nat)) = Except.ok x) :=
  ⟨(fail_iff_absent (One.mkNone : One Nat) 0).1.mpr rfl,
   (fail_iff_absent (One.new (7 : Nat)) 0).2.2.2.1.mpr rfl⟩

/-- C2: presence is one-directional. For a single operation: every
operation other than `extract` leaves presence unchanged; an absent
slot stays absent under every operation; and the only operation that
takes a present slot to an absent one is `extract`. For sequences: a
sequence without `extract` preserves presence, and once absent the
slot stays absent under every sequence. -/
theorem presence_one_directional {T : Type u} (s : One T) (op : One.Op T)
    (ops : List (One.Op T)) :
    (op ≠ One.Op.extract → One.exists' (One.applyOp s op) = One.exists' s) ∧
    (One.exists' s = false → One.exists' (One.applyOp s op) = false) ∧
    (One.exists' s = true → One.exists' (One.applyOp s op) = false →
      op = One.Op.extract) ∧
    ((∀ o ∈ ops, o ≠ One.Op.extract) →
      One.exists' (One.applyOps s ops) = One.exists' s) ∧
    (One.exists' s = false → One.exists' (One.applyOps s ops) = false) := by
  have h1 : ∀ (t : One T) (o : One.Op T), o ≠ One.Op.extract →
      One.exists' (One.applyOp t o) = One.exists' t := by
    intro t o ho
    obtain ⟨tv⟩ := t
    cases o <;> cases tv <;>
      simp_all [One.applyOp, One.writeThrough, One.take, One.expect, One.exists',
        Except.map]
  have h2 : ∀ (t : One T) (o : One.Op T), One.exists' t = false →
      One.exists' (One.applyOp t o) = false := by
    intro t o ht
    obtain ⟨tv⟩ := t
    cases o <;> cases tv <;>
      simp_all [One.applyOp, One.writeThrough, One.take, One.expect, One.exists',
        Except.map]
  have hstep : ∀ (t : One T) (o : One.Op T) (l : List (One.Op T)),
      One.applyOps t (o :: l) = One.applyOps (One.applyOp t o) l := by
    intro t o l; rfl
  have h4 : ∀ (l : List (One.Op T)) (t : One T),
      (∀ o ∈ l, o ≠ One.Op.extract) →
      One.exists' (One.applyOps t l) = One.exists' t := by
    intro l
    induction l with
    | nil => intro t _; rfl
    | cons o l ih =>
      intro t h
      rw [hstep]
      rw [ih (One.applyOp t o) (fun o' ho' => h o' (List.mem_cons_of_mem _ ho'))]
      exact h1 t o (h o (List.mem_cons_self o l))
  have h5 : ∀ (l : List (One.Op T)) (t : One T), One.exists' t = false →
      One.exists' (One.applyOps t l) = false := by
    intro l
    induction l with
    | nil => intro t ht; exact ht
    | cons o l ih =>
      intro t ht
      rw [hstep]
      exact ih (One.applyOp t o) (h2 t o ht)
  refine ⟨h1 s op, h2 s op, ?_, h4 ops s, h5 ops s⟩
  intro hpre hpost
  by_contra hop
  rw [h1 s op hop] at hpost
  rw [hpre] at hpost
  exact Bool.noConfusion hpost

/-- C2 witness: on a `Nat` slot holding `0`, the sequence of a read
and a write preserves presence; with `op = read` on a present slot
presence is unchanged; and the empty slot stays empty under a read. -/
theorem presence_one_directional_witness :
    One.exists' (One.applyOps (One.new (0 : Nat))
      [One.Op.write 1, One.Op.read]) = One.exists' (One.new (0 : Nat)) ∧
    One.exists' (One.applyOp (One.mkNone : One Nat) One.Op.read) = false :=
  ⟨(presence_one_directional (One.new (0 : Nat)) One.Op.read
      [One.Op.write 1, One.Op.read]).2.2.2.1 (by decide),
   (presence_one_directional (One.mkNone : One Nat) One.Op.read []).2.1 rfl⟩

/-- C7: with a lawful equality on `T`, two slots compare equal under
the derived equality exactly when both are absent or both are present
with equal contained values; in particular a present slot never
compares equal to an absent slot. -/
theorem equality_law {T : Type u} [BEq T] [LawfulBEq T] (a b : One T) :
    (One.beqOne a b = true ↔
      ((One.exists' a = false ∧ One.exists' b = false) ∨
        (∃ x y, a.val = some x ∧ b.val = some y ∧ x = y))) ∧
    (One.exists' a = true → One.exists' b = false → One.beqOne a b = false) := by
  obtain ⟨av⟩ := a
  obtain ⟨bv⟩ := b
  cases av <;> cases bv <;> simp [One.beqOne, One.exists']

/-- C7 witness: two `Nat` slots holding `3` compare equal, and a slot
holding `3` does not compare equal to the empty slot. -/
theorem equality_law_witness :
    One.beqOne (One.new (3 : Nat)) (One.new 3) = true ∧
    One.beqOne (One.new (3 : Nat)) One.mkNone = false :=
  ⟨(equality_law (One.new (3 : Nat)) (One.new 3)).1.mpr
      (Or.inr ⟨3, 3, rfl, rfl, rfl⟩),
   (equality_law (One.new (3 : Nat)) One.mkNone).2 rfl rfl⟩

/-- C8: under the derived ordering, an absent slot orders strictly
before any present slot (and a present slot strictly after any absent
one), and two present slots order by `T`'s own comparison of their
contained values. -/
theorem ordering_law {T : Type u} [Ord T] (a b : One T) :
    (One.exists' a = false → One.exists' b = true →
      One.cmpOne a b = Ordering.lt) ∧
    (One.exists' a = true → One.exists' b = false →
      One.cmpOne a b = Ordering.gt) ∧
    (∀ x y, a.val = some x → b.val = some y → One.cmpOne a b = compare x y) := by
  obtain ⟨av⟩ := a
  obtain ⟨bv⟩ := b
  cases av <;> cases bv <;> simp [One.cmpOne, One.exists']

/-- C8 witness: over `Nat`, the empty slot orders strictly below a
slot holding `5`, and slots holding `2` and `5` compare as `2` and `5`
do. -/
theorem ordering_law_witness :
    One.cmpOne (One.mkNone : One Nat) (One.new 5) = Ordering.lt ∧
    One.cmpOne (One.new (2 : Nat)) (One.new 5) = compare 2 5 :=
  ⟨(ordering_law (One.mkNone : One Nat) (One.new 5)).1 rfl rfl,
   (ordering_law (One.new (2 : Nat)) (One.new 5)).2.2 2 5 rfl rfl⟩

/-- C9: for every value `v`, the slot produced by the `From`
conversion is the very slot produced by `One::new(v)`: the same term,
hence the same presence and the same contained value, and the two
compare equal under the derived equality. -/
theorem conversion_law {T : Type u} [BEq T] [LawfulBEq T] (v : T) :
    One.fromValue v = One.new v ∧
    One.exists' (One.fromValue v) = One.exists' (One.new v) ∧
    (One.fromValue v).val = (One.new v).val ∧
    One.beqOne (One.fromValue v) (One.new v) = true := by
  refine ⟨rfl, rfl, rfl, ?_⟩
  simp [One.beqOne, One.fromValue, One.new]

/-- C9 witness: the conversion from the bare value `3 : Nat` yields
the same slot as `One::new 3`, and the two compare equal. -/
theorem conversion_law_witness :
    One.fromValue (3 : Nat) = One.new 3 ∧
    One.beqOne (One.fromValue (3 : Nat)) (One.new 3) = true :=
  ⟨(conversion_law (3 : Nat)).1, (conversion_law (3 : Nat)).2.2.2⟩

/-- C1 counterexample: at `T = Nat` (which has a default value, `0`),
the default-constructed slot is NOT in the present state: `is-present`
of it is false, refuting the claim that default construction yields
`Present(default(T))`. -/
theorem default_not_present_cex :
    ¬ (One.exists' (One.defaultOne : One Nat) = true) := by
  decide

/-- C1 amended: default construction is available for every `T` (no
default on `T` is required) and returns the absent slot, equal to
`construct-empty()`; `is-present` of it is false and reading it fails
with `EmptyAccess` rather than yielding a default value. -/
theorem default_is_absent_slot {T : Type u} :
    (One.defaultOne : One T) = One.mkNone ∧
    One.exists' (One.defaultOne : One T) = false ∧
    One.deref (One.defaultOne : One T) = Except.error One.emptyAccess :=
  ⟨rfl, rfl, rfl⟩

/-- C10: for every type `T`, the default-constructed slot equals
`construct-empty()`: it is absent, `is-present` of it is false, and
`read`, `write` and `extract` on it all fail with `EmptyAccess`. -/
theorem default_equals_empty {T : Type u} :
    (One.defaultOne : One T) = One.mkNone ∧
    One.exists' (One.defaultOne : One T) = false ∧
    One.deref (One.defaultOne : One T) = Except.error One.emptyAccess ∧
    (∀ v : T, One.writeThrough (One.defaultOne : One T) v =
      Except.error One.emptyAccess) ∧
    One.take (One.defaultOne : One T) = Except.error One.emptyAccess :=
  ⟨rfl, rfl, rfl, fun _ => rfl, rfl⟩

end OnlyOne
